import Mathlib

/-!
Shallow embedding of the CR2 metadata decoder from `crates/raw/src/cr2.rs`.

Bytes are modelled as `Nat` (file contents are lists of values `< 256`);
machine integers are `Nat`/`Int`; IEEE floats are modelled by their bit
patterns, which is exact here because the source only ever `transmute`s
byte arrays into floats (a pure bit reinterpretation) and widens `f32` to
`f64` (a lossless conversion on the bit pattern).  Fallible operations
return `Except`/`Option`; a Rust panic is modelled by an explicit
`panicked` outcome.  File I/O is modelled by a handle (contents plus a
cursor) over an explicit filesystem `Fs : String → Option (List Nat)`;
`read` fills the requested buffer from the contents, zero-padding past
end-of-file exactly as a short `Read::read` into a zero-initialised
buffer does, and never fails, which matches the behaviour of the source
on in-memory-sized local files.
-/

/-- Filesystem: maps a path to the bytes of the file stored there, `none`
when `File::open` on that path fails. -/
def Fs : Type := String → Option (List Nat)

/-- An open file handle: the file's bytes plus the cursor position. -/
structure FHandle where
  contents : List Nat
  pos : Nat
deriving DecidableEq, Repr

/-- Models `f.read(&mut buf)` for a zero-initialised buffer of length `k`:
returns the filled buffer (zero-padded past end of file) and the handle
with the cursor advanced by the number of bytes actually read. -/
def readBuf (f : FHandle) (k : Nat) : List Nat × FHandle :=
  ((List.range k).map (fun i => f.contents.getD (f.pos + i) 0),
   { f with pos := f.pos + min k (f.contents.length - f.pos) })

/-- Models `mem::transmute` of a little-endian byte array into an unsigned
integer: byte 0 is least significant. -/
def leCompose : List Nat → Nat
  | [] => 0
  | b :: rest => b + 256 * leCompose rest

/-- Two's-complement reading of a `bits`-wide unsigned value, modelling
`mem::transmute` into a signed integer type of that width. -/
def toSigned (v : Nat) (bits : Nat) : Int :=
  if v < 2 ^ (bits - 1) then (v : Int) else (v : Int) - 2 ^ bits

/-- Models `[u8]::to_u8` from the source: `self[0]` when the slice has
length 1, `None` otherwise. -/
def to_u8 (w : List Nat) : Option Nat :=
  if w.length = 1 then some (w.getD 0 0) else none

/-- Models `[u8]::to_u16`: transmute of a 2-byte slice, length-checked. -/
def to_u16 (w : List Nat) : Option Nat :=
  if w.length = 2 then some (leCompose w) else none

/-- Models `[u8]::to_u32`: transmute of a 4-byte slice, length-checked. -/
def to_u32 (w : List Nat) : Option Nat :=
  if w.length = 4 then some (leCompose w) else none

/-- Models `[u8]::to_u64`: transmute of an 8-byte slice, length-checked. -/
def to_u64 (w : List Nat) : Option Nat :=
  if w.length = 8 then some (leCompose w) else none

/-- Models `[u8]::to_i8`: transmute of a 1-byte slice, length-checked. -/
def to_i8 (w : List Nat) : Option Int :=
  if w.length = 1 then some (toSigned (leCompose w) 8) else none

/-- Models `[u8]::to_i16`: transmute of a 2-byte slice, length-checked. -/
def to_i16 (w : List Nat) : Option Int :=
  if w.length = 2 then some (toSigned (leCompose w) 16) else none

/-- Models `[u8]::to_i32`: transmute of a 4-byte slice, length-checked. -/
def to_i32 (w : List Nat) : Option Int :=
  if w.length = 4 then some (toSigned (leCompose w) 32) else none

/-- Models `[u8]::to_i64`: transmute of an 8-byte slice, length-checked. -/
def to_i64 (w : List Nat) : Option Int :=
  if w.length = 8 then some (toSigned (leCompose w) 64) else none

/-- Models `[u8]::to_f32`: transmute of a 4-byte slice into an `f32`,
length-checked; the float is represented by its IEEE-754 bit pattern. -/
def to_f32 (w : List Nat) : Option Nat :=
  if w.length = 4 then some (leCompose w) else none

/-- Models `[u8]::to_f64`: transmute of an 8-byte slice into an `f64`,
length-checked; the float is represented by its IEEE-754 bit pattern. -/
def to_f64 (w : List Nat) : Option Nat :=
  if w.length = 8 then some (leCompose w) else none

/-- Models the lossless Rust cast `f32 as f64` on IEEE-754 bit patterns:
sign is kept, the exponent is rebiased from 127 to 1023, the mantissa is
shifted from 23 to 52 bits; subnormals are renormalised and infinities
and NaNs map to the maximal exponent with the shifted payload. -/
def f32BitsToF64Bits (b : Nat) : Nat :=
  let s := b / 2 ^ 31
  let e := b / 2 ^ 23 % 2 ^ 8
  let m := b % 2 ^ 23
  if e = 255 then s * 2 ^ 63 + 2047 * 2 ^ 52 + m * 2 ^ 29
  else if e = 0 then
    if m = 0 then s * 2 ^ 63
    else
      let p := Nat.log2 m
      s * 2 ^ 63 + (p + 874) * 2 ^ 52 + (m - 2 ^ p) * 2 ^ (52 - p)
  else s * 2 ^ 63 + (e + 896) * 2 ^ 52 + m * 2 ^ 29

/-- Byte order marker of the TIFF container (`enum ByteOrder`). -/
inductive ByteOrder where
  | Intel
  | Motorola
deriving DecidableEq, Repr

/-- Error type of the decoder (`enum RawFileError`).  `IoError` models
`RawFileError::Io(io::Error)` (the wrapped OS error value is dropped);
`Utf8` models `RawFileError::Utf8` likewise. -/
inductive RawFileError where
  | IoError
  | Utf8
  | FileFormat (s : String)
  | Seek (p : Nat)
  | NotImplemented (s : String)
  | TypeError (u : Nat)
deriving DecidableEq, Repr

/-- Decoded tag payloads (`enum TagData`); `Float` carries the `f64` bit
pattern. -/
inductive TagData where
  | Unsigned (v : Nat)
  | Signed (v : Int)
  | U64 (v : Nat)
  | I64 (v : Int)
  | Strg (s : String)
  | Float (bits : Nat)
deriving DecidableEq, Repr

/-- The root handle (`struct RawImage`).  `tags` models the
`HashMap<String,&Any>` field as an association list (the source never
inserts into it, so the value type is unobservable). -/
structure RawImage where
  file_name : String
  byte_order : ByteOrder
  raw_offset : Nat
  ifd_offsets : List Nat
  tags : List (String × List TagData)
deriving DecidableEq, Repr

/-- Models `#[derive(Default)]` for `RawImage`: empty file name, Intel
byte order, zero offset, empty lists. -/
def defaultRawImage : RawImage :=
  { file_name := "", byte_order := ByteOrder.Intel, raw_offset := 0,
    ifd_offsets := [], tags := [] }

/-- Result of one `read_tag` call: the decoded value list and accumulated
string on success (the source computes and then discards them), a
propagated `RawFileError`, or a Rust panic. -/
inductive TagRes where
  | ok (d : List TagData) (s : String)
  | err (e : RawFileError)
  | panicked
deriving DecidableEq, Repr

/-- Outcome of a stateful operation that can fail or panic. -/
inductive Outcome (α : Type) where
  | ok (a : α)
  | err (e : RawFileError)
  | panicked
deriving DecidableEq, Repr

/-- True exactly on the `err` outcome. -/
def Outcome.isErr {α : Type} : Outcome α → Bool
  | .err _ => true
  | _ => false

/-- UTF-8 decoding of a 2-byte buffer, modelling `str::from_utf8` on the
2-byte slices the source takes from the header: either two ASCII bytes
or one valid 2-byte sequence; anything else is invalid. -/
def utf8Decode2 (b : List Nat) : Option String :=
  match b with
  | [a, c] =>
    if a < 128 ∧ c < 128 then
      some (String.mk [Char.ofNat a, Char.ofNat c])
    else if 0xc2 ≤ a ∧ a ≤ 0xdf ∧ 0x80 ≤ c ∧ c ≤ 0xbf then
      some (String.mk [Char.ofNat ((a - 0xc0) * 64 + (c - 0x80))])
    else none
  | _ => none

/-- The fixed per-element size table from `read_tag` (`valsize`): any type
code outside 1..12 maps to 0, the source's `_ => 0` arm. -/
def valsize (tagtype : Nat) : Nat :=
  match tagtype with
  | 1 | 2 | 6 | 7 => 1
  | 3 | 8 => 2
  | 4 | 9 | 11 => 4
  | 5 | 10 | 12 => 8
  | _ => 0

/-- The fixed identifier-to-name table from `read_tag` (`tagname`). -/
def tagName (tagid : Nat) : String :=
  match tagid with
  | 0x103 => "compression"
  | 0x111 => "strip_offset"
  | 0x117 => "strip_byte_count"
  | 0xc640 => "strip_cr2_slice"
  | _ => "???"

/-- Models `data.windows(k)` for `k ≥ 1`: all contiguous windows of
length `k`, overlapping, left to right (`slice::windows` panics for
`k = 0`; that case is handled at the call site). -/
def winList (l : List Nat) (k : Nat) : List (List Nat) :=
  (List.range (l.length + 1 - k)).map (fun i => (l.drop i).take k)

/-- The decode loop of `read_tag`: folds over the windows, appending to
the value list `d` or the string `s` per the type code.  The `unwrap`s of
the source cannot fail because every window has length `valsize tagtype`,
which is exactly the byte size the conversion checks for; they are
modelled by `Option.getD`. -/
def decodeVals (tagtype : Nat) : List (List Nat) → List TagData → String →
    Except RawFileError (List TagData × String)
  | [], d, s => Except.ok (d, s)
  | w :: ws, d, s =>
    match tagtype with
    | 1 | 7 => decodeVals tagtype ws (d ++ [TagData.Unsigned ((to_u8 w).getD 0)]) s
    | 2 => decodeVals tagtype ws d (s.push (Char.ofNat ((to_u8 w).getD 0)))
    | 3 => decodeVals tagtype ws (d ++ [TagData.Unsigned ((to_u16 w).getD 0)]) s
    | 4 => decodeVals tagtype ws (d ++ [TagData.Unsigned ((to_u32 w).getD 0)]) s
    | 5 => decodeVals tagtype ws (d ++ [TagData.U64 ((to_u64 w).getD 0)]) s
    | 6 => decodeVals tagtype ws (d ++ [TagData.Signed ((to_i8 w).getD 0)]) s
    | 8 => decodeVals tagtype ws (d ++ [TagData.Signed ((to_i16 w).getD 0)]) s
    | 9 => decodeVals tagtype ws (d ++ [TagData.Signed ((to_i32 w).getD 0)]) s
    | 10 => decodeVals tagtype ws (d ++ [TagData.I64 ((to_i64 w).getD 0)]) s
    | 11 => decodeVals tagtype ws
      (d ++ [TagData.Float (f32BitsToF64Bits ((to_f32 w).getD 0))]) s
    | 12 => decodeVals tagtype ws (d ++ [TagData.Float ((to_f64 w).getD 0)]) s
    | _ => Except.error (RawFileError.TypeError tagtype)

/-- Models `RawImage::read_tag`: reads a 12-byte tag record at the shared
cursor, resolves the value bytes (the inline 4-byte field when
`valsize * valcount ≤ 4`, otherwise an out-of-line read through a fresh
handle obtained by `File::open(self.file_name)` — note the source uses
the image's `file_name` field here), then decodes `data.windows(valsize)`.
Returns the advanced shared cursor paired with the result; `windows(0)`
panics, so an unknown type code yields `panicked` before the `TypeError`
arm of the decode loop can be reached. -/
def read_tag (fs : Fs) (image : RawImage) (f : FHandle) : FHandle × TagRes :=
  let r := readBuf f 12
  let tag := r.1
  let f1 := r.2
  let tagtype := (to_u16 ((tag.drop 2).take 2)).getD 0
  let valcount := (to_u32 ((tag.drop 4).take 4)).getD 0
  let vsize := valsize tagtype
  let dataRes : Except RawFileError (List Nat) :=
    if vsize * valcount > 4 then
      let offset := (to_u32 ((tag.drop 8).take 4)).getD 0
      match fs image.file_name with
      | none => Except.error RawFileError.IoError
      | some c => Except.ok (readBuf { contents := c, pos := offset } (vsize * valcount)).1
    else Except.ok ((tag.drop 8).take 4)
  match dataRes with
  | Except.error e => (f1, TagRes.err e)
  | Except.ok data =>
    if vsize = 0 then (f1, TagRes.panicked)
    else
      match decodeVals tagtype (winList data vsize) [] "" with
      | Except.error e => (f1, TagRes.err e)
      | Except.ok (d, s) => (f1, TagRes.ok d s)

/-- The tag loop of `read_ifd`: calls `read_tag` `n` times on the shared
cursor.  The source discards `read_tag`'s `Result`
(`self.read_tag(f);`), so both success and error continue the loop; only
a panic aborts. -/
def tagLoop (fs : Fs) (image : RawImage) : Nat → FHandle → Outcome FHandle
  | 0, f => Outcome.ok f
  | Nat.succ k, f =>
    match read_tag fs image f with
    | (_, TagRes.panicked) => Outcome.panicked
    | (f1, _) => tagLoop fs image k f1

/-- Models `RawImage::read_ifd`: seeks to `ifd_offsets[index]` (an
out-of-bounds index panics), reads the 2-byte tag count, runs the tag
loop when `read_tags` is set, then seeks to `pos + n*12 + 2`, reads the
4-byte next-directory pointer and appends it to `ifd_offsets` when it is
nonzero.  Returns the updated image, the cursor, and the pointer. -/
def read_ifd (fs : Fs) (image : RawImage) (f : FHandle) (index : Nat)
    (read_tags : Bool) : Outcome (RawImage × FHandle × Nat) :=
  if index < image.ifd_offsets.length then
    let posv := image.ifd_offsets.getD index 0
    let r1 := readBuf { f with pos := posv } 2
    let n := (to_u16 r1.1).getD 0
    let body : Outcome FHandle :=
      if read_tags then tagLoop fs image n r1.2 else Outcome.ok r1.2
    match body with
    | Outcome.panicked => Outcome.panicked
    | Outcome.err e => Outcome.err e
    | Outcome.ok f2 =>
      let r2 := readBuf { f2 with pos := posv + n * 12 + 2 } 4
      let iov := (to_u32 r2.1).getD 0
      let image' :=
        if iov ≠ 0 then { image with ifd_offsets := image.ifd_offsets ++ [iov] }
        else image
      Outcome.ok (image', r2.2, iov)
  else Outcome.panicked

/-- Models `RawImage::read_header`: seeks to 0, reads 16 bytes, checks
the byte-order marker, the TIFF magic, pushes the first-IFD offset,
checks the CR2 magic and the version pair (note the source's `&&`:
the error fires only when the major is not 2 AND the minor is not 0),
then records `raw_offset`. -/
def read_header (image : RawImage) (f : FHandle) :
    Except RawFileError (RawImage × FHandle) :=
  let r := readBuf { f with pos := 0 } 16
  let head := r.1
  let f1 := r.2
  match utf8Decode2 ((head.drop 0).take 2) with
  | none => Except.error RawFileError.Utf8
  | some s =>
    if s = "II" then
      let image := { image with byte_order := ByteOrder.Intel }
      if (to_u16 ((head.drop 2).take 2)).getD 0 ≠ 0x2a then
        Except.error (RawFileError.FileFormat "Tiff Magic mismatch")
      else
        let image := { image with
          ifd_offsets := image.ifd_offsets ++ [(to_u32 ((head.drop 4).take 4)).getD 0] }
        match utf8Decode2 ((head.drop 8).take 2) with
        | none => Except.error RawFileError.Utf8
        | some cm =>
          if cm ≠ "CR" then
            Except.error (RawFileError.FileFormat "CR2 Magic mismatch")
          else
            let cmaj := head.getD 10 0
            let cmin := head.getD 11 0
            if cmaj ≠ 2 ∧ cmin ≠ 0 then
              Except.error (RawFileError.NotImplemented
                ("CR2 Version " ++ toString cmaj ++ "." ++ toString cmin ++
                 " not supported"))
            else
              Except.ok ({ image with raw_offset := (to_u32 ((head.drop 12).take 4)).getD 0 }, f1)
    else if s = "MM" then
      Except.error (RawFileError.NotImplemented "Only Intel Byte Order supported!")
    else
      Except.error (RawFileError.FileFormat ("Unknown byte order " ++ s))

/-- The directory-walk loop of `open`, with explicit fuel: `none` models
a walk that has not finished within the given fuel (the source's loop
`while ri.ifd_offsets.len() > i` has no other exit). -/
def openLoop (fs : Fs) : Nat → RawImage → FHandle → Nat →
    Option (Outcome (RawImage × FHandle))
  | 0, _, _, _ => none
  | Nat.succ fuel, image, f, i =>
    if image.ifd_offsets.length > i then
      match read_ifd fs image f i true with
      | Outcome.panicked => some Outcome.panicked
      | Outcome.err e => some (Outcome.err e)
      | Outcome.ok (image', f', _) => openLoop fs fuel image' f' (i + 1)
    else some (Outcome.ok (image, f))

/-- Models `cr2::open`: opens the file, reads the header, walks every
directory in `ifd_offsets` by index, and only then stores the path into
`file_name`.  `none` models non-termination of the walk. -/
def openCr2 (fs : Fs) (path : String) (fuel : Nat) : Option (Outcome RawImage) :=
  match fs path with
  | none => some (Outcome.err RawFileError.IoError)
  | some contents =>
    match read_header defaultRawImage { contents := contents, pos := 0 } with
    | Except.error e => some (Outcome.err e)
    | Except.ok (image, f) =>
      match openLoop fs fuel image f 0 with
      | none => none
      | some (Outcome.ok (image', _)) => some (Outcome.ok { image' with file_name := path })
      | some (Outcome.err e) => some (Outcome.err e)
      | some Outcome.panicked => some Outcome.panicked

/-! ### Concrete inputs used by the theorems -/

/-- Scenario A header: "II", TIFF magic 0x2a, first-IFD offset 0x10,
"CR", version 2.0, raw offset 0x4000. -/
def hdrA : List Nat := [0x49, 0x49, 0x2a, 0x00, 0x10, 0, 0, 0, 0x43, 0x52, 2, 0, 0x00, 0x40, 0, 0]

/-- Scenario A file: the header followed at offset 0x10 by an IFD with
tag count 0 and next-directory pointer 0. -/
def fileA : List Nat := hdrA ++ [0, 0] ++ [0, 0, 0, 0]

/-- Filesystem holding Scenario A's file at path "a". -/
def fsA : Fs := fun n => if n = "a" then some fileA else none

/-- The image Scenario A's open returns. -/
def imgA : RawImage :=
  { file_name := "a", byte_order := ByteOrder.Intel, raw_offset := 0x4000,
    ifd_offsets := [0x10], tags := [] }

/-- A cyclic file: the Scenario A header, but the IFD at offset 0x10 has
next-directory pointer 0x10, pointing back to itself. -/
def fileC : List Nat := hdrA ++ [0, 0] ++ [0x10, 0, 0, 0]

/-- Filesystem holding the cyclic file at path "c". -/
def fsC : Fs := fun n => if n = "c" then some fileC else none

/-- The image state right after `read_header` on the cyclic file. -/
def imgC0 : RawImage :=
  { file_name := "", byte_order := ByteOrder.Intel, raw_offset := 0x4000,
    ifd_offsets := [0x10], tags := [] }

/-- The image state after one `read_ifd` step on the cyclic file: the
revisited offset 0x10 has been appended again. -/
def imgC1 : RawImage :=
  { imgC0 with ifd_offsets := [0x10, 0x10] }

/-- Scenario D tag record: id 0x111, type 4 (u32), count 1, inline value
bytes 01 00 00 00. -/
def tagD : List Nat := [0x11, 0x01, 4, 0, 1, 0, 0, 0, 1, 0, 0, 0]

/-- A tag record with type 3 (u16) and count 1: element size 2, total 2,
inline; the decoder nevertheless windows the full 4-byte field. -/
def tag31 : List Nat := [0x11, 0x01, 3, 0, 1, 0, 0, 0, 5, 0, 0, 0]

/-- A tag record with the undefined type code 13. -/
def tag13 : List Nat := [0x11, 0x01, 13, 0, 1, 0, 0, 0, 1, 0, 0, 0]

/-- A tag record with type 1 (u8) and count 5: total 5 > 4, so the value
bytes are out of line at offset 22. -/
def tag15 : List Nat := [0x11, 0x01, 1, 0, 5, 0, 0, 0, 22, 0, 0, 0]

/-- A tag record with type 3 (u16) and count 2: total exactly 4, inline. -/
def tag32 : List Nat := [0x11, 0x01, 3, 0, 2, 0, 0, 0, 1, 0, 2, 0]

/-- A header whose CR2 version bytes are major 3, minor 0. -/
def hdrV30 : List Nat := [0x49, 0x49, 0x2a, 0x00, 0x10, 0, 0, 0, 0x43, 0x52, 3, 0, 0x00, 0x40, 0, 0]

/-- A header whose CR2 version bytes are major 3, minor 5. -/
def hdrV35 : List Nat := [0x49, 0x49, 0x2a, 0x00, 0x10, 0, 0, 0, 0x43, 0x52, 3, 5, 0x00, 0x40, 0, 0]

/-- A file whose single IFD holds one tag with an out-of-line value
(`tag15`), next-directory pointer 0. -/
def fileE : List Nat := hdrA ++ [1, 0] ++ tag15 ++ [0, 0, 0, 0]

/-- Filesystem holding `fileE` at path "e"; `File::open ""` fails on it. -/
def fsE : Fs := fun n => if n = "e" then some fileE else none

/-- The image state right after `read_header` on `fileE`. -/
def imgE0 : RawImage :=
  { file_name := "", byte_order := ByteOrder.Intel, raw_offset := 0x4000,
    ifd_offsets := [0x10], tags := [] }

/-- The image a successful open of `fileE` returns. -/
def imgE : RawImage :=
  { imgE0 with file_name := "e" }

/-- Modelled from the spec: the explicit shift-and-or little-endian
reference composition of a byte window ("shift/or per byte, respecting
little-endian order"), stated for comparison with the transmute-based
decoders of the source. -/
def specLE : List Nat → Nat
  | [] => 0
  | b :: rest => b ||| (specLE rest <<< 8)

/-- The tag count a directory at offset `off` declares: the u16 read by
`read_ifd` right after seeking to the directory (cr2.rs:286-289). -/
def dirCount (contents : List Nat) (off : Nat) : Nat :=
  (to_u16 (readBuf { contents := contents, pos := off } 2).1).getD 0

/-- The next-directory pointer of the directory at offset `off`: the u32
`read_ifd` reads at `off + n*12 + 2` (cr2.rs:295-299).  It depends only
on the file contents, not on how the tag loop moved the cursor, because
`read_ifd` seeks there explicitly. -/
def nextDir (contents : List Nat) (off : Nat) : Nat :=
  (to_u32 (readBuf { contents := contents,
                     pos := off + dirCount contents off * 12 + 2 } 4).1).getD 0

/-- The tag loop `read_ifd` runs for the directory at offset `off`, on
the cursor as it stands right after the 2-byte count read; `read_tag`
consults the image only through `file_name`, so the image argument is
canonicalised to one carrying just the file name. -/
def dirBody (fs : Fs) (fname : String) (contents : List Nat) (off : Nat) : Outcome FHandle :=
  tagLoop fs { defaultRawImage with file_name := fname } (dirCount contents off)
    (readBuf { contents := contents, pos := off } 2).2

/-- The next-directory pointer chain of a file, starting from a first
offset: `chainFrom c o0 k` is the offset the walker processes at step
`k` (as long as the chain stays nonzero and no decode panics). -/
def chainFrom (contents : List Nat) (o0 : Nat) : Nat → Nat
  | 0 => o0
  | k + 1 => nextDir contents (chainFrom contents o0 k)

/-- A cyclic file whose single IFD (at offset 0x10) carries one tag with
the undefined type code 13 and a next-directory pointer back to 0x10. -/
def filePan : List Nat := hdrA ++ [1, 0] ++ tag13 ++ [0x10, 0, 0, 0]

/-- Filesystem holding `filePan` at path "p". -/
def fsPan : Fs := fun n => if n = "p" then some filePan else none

/-! ### Helper lemmas -/

/-- The fold-based composition agrees with the shift-and-or reference on
genuine byte lists. -/
theorem leCompose_eq_specLE : ∀ w : List Nat, (∀ b ∈ w, b < 256) → leCompose w = specLE w := by
  intro w
  induction w with
  | nil => intro _; rfl
  | cons b rest ih =>
    intro h
    have hb : b < 2 ^ 8 := by
      have := h b (List.mem_cons_self b rest)
      norm_num
      omega
    have hr := ih (fun x hx => h x (List.mem_cons_of_mem b hx))
    show b + 256 * leCompose rest = b ||| (specLE rest <<< 8)
    rw [hr]
    calc b + 256 * specLE rest = 2 ^ 8 * specLE rest + b := by ring
    _ = 2 ^ 8 * specLE rest ||| b := Nat.mul_add_lt_is_or hb _
    _ = b ||| 2 ^ 8 * specLE rest := Nat.lor_comm _ _
    _ = b ||| (specLE rest <<< 8) := by rw [Nat.shiftLeft_eq, Nat.mul_comm]

/-! ### Claim theorems -/

/-- Claim C1: the tag decoder is claimed to split the value bytes into
exactly `value_count` disjoint chunks of `element_size` bytes, yielding
exactly `value_count` decoded elements.  The code instead decodes every
overlapping `element_size`-window of the buffer (and the inline buffer is
always the full 4-byte field): the Scenario D tag (type 4, count 1,
inline 01 00 00 00) does decode, with no further read (any filesystem and
image give the same result), to the single unsigned value 1, but a tag
with type 3 (u16) and count 1 decodes to three values instead of one. -/
theorem claim_C1 :
    (∀ fs image, read_tag fs image { contents := tagD, pos := 0 } =
      ({ contents := tagD, pos := 12 }, TagRes.ok [TagData.Unsigned 1] "")) ∧
    (∀ fs image, read_tag fs image { contents := tag31, pos := 0 } =
      ({ contents := tag31, pos := 12 },
       TagRes.ok [TagData.Unsigned 5, TagData.Unsigned 0, TagData.Unsigned 0] "")) :=
  ⟨fun _ _ => rfl, fun _ _ => rfl⟩

/-- Claim C4: a tag with `element_size * value_count = 4` is decoded from
the inline field with no further read (the result is independent of the
filesystem and image).  For a product of 5 the code does branch to an
out-of-line read, but it opens `self.file_name`, which during `open` is
still the default empty string, so the read hits the wrong source and
fails with an I/O error instead of reading 5 bytes from the same file. -/
theorem claim_C4 :
    (∀ fs image, read_tag fs image { contents := tag32, pos := 0 } =
      ({ contents := tag32, pos := 12 },
       TagRes.ok [TagData.Unsigned 1, TagData.Unsigned 512, TagData.Unsigned 2] "")) ∧
    read_tag fsA defaultRawImage { contents := tag15, pos := 0 } =
      ({ contents := tag15, pos := 12 }, TagRes.err RawFileError.IoError) :=
  ⟨fun _ _ => rfl, rfl⟩

/-- Claim C5: the header check is claimed to reject every version pair
other than (2, 0).  The source tests `cmaj[0] != 2 && cmin[0] != 0`, so a
header with version bytes (3, 0) passes the check and `read_header`
succeeds, while (3, 5) is rejected as claimed. -/
theorem claim_C5 :
    read_header defaultRawImage { contents := hdrV30, pos := 0 } =
      Except.ok ({ file_name := "", byte_order := ByteOrder.Intel, raw_offset := 0x4000,
                   ifd_offsets := [0x10], tags := [] },
                 { contents := hdrV30, pos := 16 }) ∧
    read_header defaultRawImage { contents := hdrV35, pos := 0 } =
      Except.error (RawFileError.NotImplemented "CR2 Version 3.5 not supported") :=
  ⟨rfl, rfl⟩

/-- Claim C6: the size table is total on type codes 1..12 with values in
{1,2,4,8}, and every other type code maps to the default size 0, but the
decoder then calls `data.windows(0)`, which panics, so the claimed
`TypeError` is never produced: a tag with type code 13 panics. -/
theorem claim_C6 :
    (([1, 2, 3, 4, 5, 6, 7, 8, 9, 10, 11, 12] : List Nat).all
      (fun t => decide (valsize t ∈ ([1, 2, 4, 8] : List Nat))) = true) ∧
    (∀ t : Nat, valsize t = 0 ∨ valsize t ∈ ([1, 2, 4, 8] : List Nat)) ∧
    (∀ fs image, read_tag fs image { contents := tag13, pos := 0 } =
      ({ contents := tag13, pos := 12 }, TagRes.panicked)) := by
  refine ⟨by decide, ?_, fun _ _ => rfl⟩
  intro t
  unfold valsize
  split <;> simp

/-- Claim C8: each byte decoder returns a value exactly when the window
length equals the target size, and the value is the little-endian
shift-and-or composition of the bytes (two's-complement read for the
signed decoders; floats are represented by their IEEE-754 bit pattern,
which the transmute of the source maps the composed bits onto). -/
theorem claim_C8 (w : List Nat) (hw : ∀ b ∈ w, b < 256) :
    (to_u8 w = if w.length = 1 then some (specLE w) else none) ∧
    (to_u16 w = if w.length = 2 then some (specLE w) else none) ∧
    (to_u32 w = if w.length = 4 then some (specLE w) else none) ∧
    (to_u64 w = if w.length = 8 then some (specLE w) else none) ∧
    (to_i8 w = if w.length = 1 then some (toSigned (specLE w) 8) else none) ∧
    (to_i16 w = if w.length = 2 then some (toSigned (specLE w) 16) else none) ∧
    (to_i32 w = if w.length = 4 then some (toSigned (specLE w) 32) else none) ∧
    (to_i64 w = if w.length = 8 then some (toSigned (specLE w) 64) else none) ∧
    (to_f32 w = if w.length = 4 then some (specLE w) else none) ∧
    (to_f64 w = if w.length = 8 then some (specLE w) else none) := by
  have hle := leCompose_eq_specLE w hw
  refine ⟨?_, ?_, ?_, ?_, ?_, ?_, ?_, ?_, ?_, ?_⟩
  · unfold to_u8
    split
    · next h =>
      have hg : w.getD 0 0 = leCompose w := by
        match w, h with
        | [b], _ => simp [leCompose]
      rw [hg, hle]
    · rfl
  all_goals simp only [to_u16, to_u32, to_u64, to_i8, to_i16, to_i32, to_i64, to_f32, to_f64, hle]

/-- Witness for claim C8 at the concrete window [1, 2]. -/
theorem claim_C8_witness :
    to_u16 [1, 2] = (if ([1, 2] : List Nat).length = 2 then some (specLE [1, 2]) else none) :=
  (claim_C8 [1, 2] (by decide)).2.1

/-- Claim C9: Scenario A's file opens successfully to an image with raw
offset 0x4000, exactly one directory (at offset 0x10), and no recorded
tags. -/
theorem claim_C9 :
    openCr2 fsA "a" 2 = some (Outcome.ok imgA) ∧
    imgA.raw_offset = 0x4000 ∧ imgA.ifd_offsets = [0x10] ∧ imgA.tags = [] :=
  ⟨rfl, rfl, rfl, rfl⟩

theorem read_header_shape (image : RawImage) (f : FHandle) (r : RawImage × FHandle)
    (h : read_header image f = Except.ok r) :
    r.1.tags = image.tags ∧ r.1.file_name = image.file_name ∧
    ∃ v, r.1.ifd_offsets = image.ifd_offsets ++ [v] := by
  simp only [read_header] at h
  split at h
  · exact absurd h (by simp)
  · split at h
    · split at h
      · exact absurd h (by simp)
      · split at h
        · exact absurd h (by simp)
        · split at h
          · exact absurd h (by simp)
          · split at h
            · exact absurd h (by simp)
            · cases h
              exact ⟨rfl, rfl, _, rfl⟩
    · split at h
      · exact absurd h (by simp)
      · exact absurd h (by simp)

theorem read_ifd_ok_shape (fs : Fs) (image : RawImage) (f : FHandle) (i : Nat)
    (rt : Bool) (r : RawImage × FHandle × Nat)
    (h : read_ifd fs image f i rt = Outcome.ok r) :
    r.1.tags = image.tags ∧ r.1.file_name = image.file_name ∧
    ∃ rest, r.1.ifd_offsets = image.ifd_offsets ++ rest ∧ ∀ x ∈ rest, x ≠ 0 := by
  simp only [read_ifd] at h
  split at h
  · split at h
    · exact absurd h (by simp)
    · exact absurd h (by simp)
    · split at h
      · next hnz =>
        cases h
        exact ⟨rfl, rfl, [_], rfl, by simpa using hnz⟩
      · cases h
        exact ⟨rfl, rfl, [], by simp, by simp⟩
  · exact absurd h (by simp)

theorem openLoop_ok_shape (fs : Fs) : ∀ (fuel : Nat) (image : RawImage) (f : FHandle)
    (i : Nat) (r : RawImage × FHandle),
    openLoop fs fuel image f i = some (Outcome.ok r) →
    r.1.tags = image.tags ∧ r.1.file_name = image.file_name ∧
    ∃ rest, r.1.ifd_offsets = image.ifd_offsets ++ rest ∧ ∀ x ∈ rest, x ≠ 0 := by
  intro fuel
  induction fuel with
  | zero => intro image f i r h; exact absurd h (by simp [openLoop])
  | succ n ih =>
    intro image f i r h
    simp only [openLoop] at h
    split at h
    · split at h
      · exact absurd h (by simp)
      · exact absurd h (by simp)
      · next image' f' x heq =>
        obtain ⟨ht, hf, rest, hr, hnz⟩ := ih image' f' (i + 1) r h
        obtain ⟨ht', hf', rest', hr', hnz'⟩ :=
          read_ifd_ok_shape fs image f i true (image', f', x) heq
        refine ⟨ht.trans ht', hf.trans hf', rest' ++ rest, ?_, ?_⟩
        · rw [hr, hr', List.append_assoc]
        · intro y hy
          rcases List.mem_append.mp hy with hy | hy
          · exact hnz' y hy
          · exact hnz y hy
    · simp at h
      subst h
      exact ⟨rfl, rfl, [], by simp, by simp⟩

/-- Claim C2: decoded tag values are claimed to be recorded under the
resolved name in the owning directory's tag mapping and exposed by the
returned image.  In the code `read_tag` computes the name and the values
and then drops them — nothing is ever inserted into `tags` — so every
image a successful open returns has an empty tag mapping. -/
theorem claim_C2 (fs : Fs) (path : String) (fuel : Nat) (image : RawImage)
    (h : openCr2 fs path fuel = some (Outcome.ok image)) : image.tags = [] := by
  simp only [openCr2] at h
  split at h
  · simp at h
  · split at h
    · simp at h
    · next image0 f0 heq =>
      split at h
      · simp at h
      · next image1 f1 heq2 =>
        simp at h
        have ht0 : image0.tags = defaultRawImage.tags :=
          (read_header_shape _ _ _ heq).1
        have ht1 : image1.tags = image0.tags :=
          (openLoop_ok_shape fs fuel image0 f0 0 (image1, f1) heq2).1
        rw [← h]
        show image1.tags = []
        rw [ht1, ht0]
        rfl
      · simp at h
      · simp at h

/-- Witness for claim C2 at Scenario A's concrete open. -/
theorem claim_C2_witness : imgA.tags = [] := claim_C2 fsA "a" 2 imgA rfl

/-- Claim C10: the directory-offset list is append-only — `read_header`
appends exactly one (possibly zero) seed entry and `read_ifd` only ever
appends nonzero entries — so in any image a successful open returns,
every entry past the header-seeded first one is nonzero. -/
theorem claim_C10 :
    (∀ (image : RawImage) (f : FHandle) (r : RawImage × FHandle),
        read_header image f = Except.ok r →
        ∃ v, r.1.ifd_offsets = image.ifd_offsets ++ [v]) ∧
    (∀ (fs : Fs) (image : RawImage) (f : FHandle) (i : Nat) (rt : Bool)
        (r : RawImage × FHandle × Nat),
        read_ifd fs image f i rt = Outcome.ok r →
        ∃ rest, r.1.ifd_offsets = image.ifd_offsets ++ rest ∧ ∀ x ∈ rest, x ≠ 0) ∧
    (∀ (fs : Fs) (path : String) (fuel : Nat) (image : RawImage),
        openCr2 fs path fuel = some (Outcome.ok image) →
        ∀ j, 1 ≤ j → j < image.ifd_offsets.length → image.ifd_offsets.getD j 0 ≠ 0) := by
  refine ⟨fun image f r h => (read_header_shape image f r h).2.2,
          fun fs image f i rt r h => (read_ifd_ok_shape fs image f i rt r h).2.2,
          ?_⟩
  intro fs path fuel image h j hj1 hjlen
  simp only [openCr2] at h
  split at h
  · simp at h
  · split at h
    · simp at h
    · next image0 f0 heq =>
      split at h
      · simp at h
      · next image1 f1 heq2 =>
        simp at h
        obtain ⟨v, hv⟩ := (read_header_shape _ _ _ heq).2.2
        obtain ⟨rest, hrest, hnz⟩ :=
          (openLoop_ok_shape fs fuel image0 f0 0 (image1, f1) heq2).2.2
        have hoffs : image.ifd_offsets = [v] ++ rest := by
          rw [← h]
          show image1.ifd_offsets = [v] ++ rest
          rw [hrest, hv]
          rfl
        rw [hoffs] at hjlen ⊢
        rw [List.getD_append_right _ _ _ _ (by simpa using hj1)]
        have hjr : j - 1 < rest.length := by
          simp at hjlen
          omega
        simp only [List.length_singleton]
        rw [List.getD_eq_getElem _ _ hjr]
        exact hnz _ (List.getElem_mem hjr)
      · simp at h
      · simp at h

/-- Witness for claim C10's read_ifd part at a concrete directory step. -/
theorem claim_C10_witness :
    ∃ rest, imgC1.ifd_offsets = imgC0.ifd_offsets ++ rest ∧ ∀ x ∈ rest, x ≠ 0 :=
  claim_C10.2.1 fsC imgC0 { contents := fileC, pos := 0 } 0 true
    (imgC1, { contents := fileC, pos := 22 }, 0x10) rfl

theorem tagLoop_no_err : ∀ (fs : Fs) (image : RawImage) (k : Nat) (f : FHandle),
    (tagLoop fs image k f).isErr = false := by
  intro fs image k
  induction k with
  | zero => intro f; rfl
  | succ n ih =>
    intro f
    simp only [tagLoop]
    rcases hrt : read_tag fs image f with ⟨f1, tr⟩
    cases tr
    · exact ih f1
    · exact ih f1
    · rfl

/-- Claim C7 (amended): the directory walker never propagates a tag-level
failure: the tag loop discards `read_tag`'s result (the source drops the
`Result` of `self.read_tag(f)`), and `read_ifd` consequently never
returns an error outcome. -/
theorem claim_C7 :
    (∀ (fs : Fs) (image : RawImage) (k : Nat) (f : FHandle),
      (tagLoop fs image k f).isErr = false) ∧
    (∀ (fs : Fs) (image : RawImage) (f : FHandle) (i : Nat) (rt : Bool),
      (read_ifd fs image f i rt).isErr = false) := by
  refine ⟨tagLoop_no_err, ?_⟩
  intro fs image f i rt
  simp only [read_ifd]
  split
  · split
    · rfl
    · next e heq =>
      cases rt with
      | false => simp at heq
      | true =>
        simp only [if_true] at heq
        have h2 := congrArg (Outcome.isErr) heq
        rw [tagLoop_no_err] at h2
        simp [Outcome.isErr] at h2
    · split <;> rfl
  · rfl

/-- Counterexample for claim C7 as stated: opening `fileE` succeeds even
though the decode of its single tag — the exact inner `read_tag` call the
walk makes — fails with an I/O error; the error does not propagate. -/
theorem claim_C7_cex :
    openCr2 fsE "e" 2 = some (Outcome.ok imgE) ∧
    read_tag fsE imgE0 { contents := fileE, pos := 18 } =
      ({ contents := fileE, pos := 30 }, TagRes.err RawFileError.IoError) :=
  ⟨rfl, rfl⟩

theorem read_tag_file_name (fs : Fs) (image image' : RawImage) (f : FHandle)
    (h : image.file_name = image'.file_name) :
    read_tag fs image f = read_tag fs image' f := by
  unfold read_tag
  rw [h]

theorem read_tag_fst (fs : Fs) (image : RawImage) (f : FHandle) :
    (read_tag fs image f).1 = (readBuf f 12).2 := by
  simp only [read_tag]
  split
  · rfl
  · split
    · rfl
    · split <;> rfl

theorem tagLoop_file_name (fs : Fs) (image image' : RawImage)
    (h : image.file_name = image'.file_name) :
    ∀ (n : Nat) (f : FHandle), tagLoop fs image n f = tagLoop fs image' n f := by
  intro n
  induction n with
  | zero => intro f; rfl
  | succ m ih =>
    intro f
    simp only [tagLoop]
    rw [read_tag_file_name fs image image' f h]
    rcases read_tag fs image' f with ⟨f1, tr⟩
    cases tr
    · exact ih f1
    · exact ih f1
    · rfl

theorem tagLoop_contents (fs : Fs) (image : RawImage) :
    ∀ (n : Nat) (f g : FHandle), tagLoop fs image n f = Outcome.ok g →
    g.contents = f.contents := by
  intro n
  induction n with
  | zero =>
    intro f g h
    simp only [tagLoop] at h
    cases h
    rfl
  | succ m ih =>
    intro f g h
    simp only [tagLoop] at h
    rcases hrt : read_tag fs image f with ⟨f1, tr⟩
    rw [hrt] at h
    have hf1 : f1.contents = f.contents := by
      have h1 : (read_tag fs image f).1 = f1 := by rw [hrt]
      rw [read_tag_fst] at h1
      rw [← h1]
      rfl
    cases tr
    · exact (ih f1 g h).trans hf1
    · exact (ih f1 g h).trans hf1
    · exact absurd h (by simp)

theorem read_header_contents (image : RawImage) (f : FHandle) (r : RawImage × FHandle)
    (h : read_header image f = Except.ok r) : r.2.contents = f.contents := by
  simp only [read_header] at h
  split at h
  · exact absurd h (by simp)
  · split at h
    · split at h
      · exact absurd h (by simp)
      · split at h
        · exact absurd h (by simp)
        · split at h
          · exact absurd h (by simp)
          · split at h
            · exact absurd h (by simp)
            · cases h
              rfl
    · split at h
      · exact absurd h (by simp)
      · exact absurd h (by simp)

theorem read_ifd_chain (fs : Fs) (image : RawImage) (fc : List Nat) (fp i off : Nat)
    (hi : i < image.ifd_offsets.length)
    (hoff : image.ifd_offsets.getD i 0 = off)
    (hnp : dirBody fs image.file_name fc off ≠ Outcome.panicked) :
    ∃ g : FHandle, g.contents = fc ∧
      read_ifd fs image { contents := fc, pos := fp } i true =
        Outcome.ok
          ((if nextDir fc off ≠ 0 then
              { image with ifd_offsets := image.ifd_offsets ++ [nextDir fc off] }
            else image), g, nextDir fc off) := by
  simp only [read_ifd]
  rw [if_pos hi, hoff]
  simp only [eq_self_iff_true, if_true]
  have hconv : tagLoop fs image
      ((to_u16 (readBuf { contents := fc, pos := off } 2).1).getD 0)
      (readBuf { contents := fc, pos := off } 2).2 = dirBody fs image.file_name fc off :=
    tagLoop_file_name fs image { defaultRawImage with file_name := image.file_name } rfl _ _
  rw [hconv]
  cases hb : dirBody fs image.file_name fc off with
  | panicked => exact absurd hb hnp
  | err e =>
    have hne : (dirBody fs image.file_name fc off).isErr = false :=
      tagLoop_no_err fs _ _ _
    rw [hb] at hne
    simp [Outcome.isErr] at hne
  | ok g2 =>
    have hg2 : g2.contents = fc := by
      have := tagLoop_contents fs { defaultRawImage with file_name := image.file_name }
        (dirCount fc off) (readBuf { contents := fc, pos := off } 2).2 g2 hb
      simpa [readBuf] using this
    refine ⟨(readBuf { contents := g2.contents, pos := off + (to_u16 (readBuf { contents := fc, pos := off } 2).1).getD 0 * 12 + 2 } 4).2, ?_, ?_⟩
    · simp [readBuf, hg2]
    · simp only [readBuf, nextDir, dirCount, hg2]

theorem chainFrom_add_period (c : List Nat) (o0 i p : Nat)
    (hp : chainFrom c o0 (i + p) = chainFrom c o0 i) :
    ∀ m, i ≤ m → chainFrom c o0 (m + p) = chainFrom c o0 m := by
  intro m him
  obtain ⟨d, rfl⟩ := Nat.exists_eq_add_of_le him
  clear him
  induction d with
  | zero => simpa using hp
  | succ n ih =>
    have e1 : i + (n + 1) + p = (i + n + p) + 1 := by omega
    have e2 : i + (n + 1) = (i + n) + 1 := by omega
    rw [e1, e2]
    show nextDir c (chainFrom c o0 (i + n + p)) = nextDir c (chainFrom c o0 (i + n))
    rw [ih]

theorem chainFrom_mod (c : List Nat) (o0 i p : Nat)
    (hper : chainFrom c o0 (i + p) = chainFrom c o0 i) :
    ∀ k, i ≤ k → chainFrom c o0 k = chainFrom c o0 (i + (k - i) % p) := by
  have aux : ∀ q r, chainFrom c o0 (i + (q * p + r)) = chainFrom c o0 (i + r) := by
    intro q
    induction q with
    | zero => intro r; simp
    | succ n ih =>
      intro r
      have e : i + ((n + 1) * p + r) = (i + (n * p + r)) + p := by ring
      rw [e, chainFrom_add_period c o0 i p hper _ (by omega), ih]
  intro k hik
  have h2 := Nat.div_add_mod (k - i) p
  rw [Nat.mul_comm] at h2
  have e : k = i + ((k - i) / p * p + (k - i) % p) := by omega
  calc chainFrom c o0 k = chainFrom c o0 (i + ((k - i) / p * p + (k - i) % p)) := by rw [← e]
  _ = chainFrom c o0 (i + (k - i) % p) := aux _ _

theorem chainFrom_nonzero (c : List Nat) (o0 i j : Nat) (hij : i < j)
    (hcyc : chainFrom c o0 i = chainFrom c o0 j)
    (hlive : ∀ k, 1 ≤ k → k ≤ j → chainFrom c o0 k ≠ 0) :
    ∀ k, 1 ≤ k → chainFrom c o0 k ≠ 0 := by
  have hper : chainFrom c o0 (i + (j - i)) = chainFrom c o0 i := by
    rw [show i + (j - i) = j from by omega]
    exact hcyc.symm
  intro k hk1
  by_cases hkj : k ≤ j
  · exact hlive k hk1 hkj
  · have hki : i ≤ k := by omega
    rw [chainFrom_mod c o0 i (j - i) hper k hki]
    have hmlt : (k - i) % (j - i) < j - i := Nat.mod_lt _ (by omega)
    by_cases hm1 : 1 ≤ i + (k - i) % (j - i)
    · exact hlive _ hm1 (by omega)
    · have hi0 : i = 0 := by omega
      have hr0 : (k - i) % (j - i) = 0 := by omega
      rw [hr0, Nat.add_zero, hi0, show chainFrom c o0 0 = chainFrom c o0 i from by rw [hi0]]
      rw [hcyc]
      exact hlive j (by omega) (Nat.le_refl j)

theorem openLoop_chain (fs : Fs) (fname : String) (contents : List Nat) (o0 : Nat)
    (hnz : ∀ k, 1 ≤ k → chainFrom contents o0 k ≠ 0)
    (hnp : ∀ k, dirBody fs fname contents (chainFrom contents o0 k) ≠ Outcome.panicked) :
    ∀ (fuel i : Nat) (image : RawImage) (fp : Nat),
      image.file_name = fname →
      image.ifd_offsets.length = i + 1 →
      image.ifd_offsets.getD i 0 = chainFrom contents o0 i →
      openLoop fs fuel image { contents := contents, pos := fp } i = none := by
  intro fuel
  induction fuel with
  | zero => intro i image fp _ _ _; rfl
  | succ n ih =>
    intro i image fp hfn hlen hoff
    have hi : i < image.ifd_offsets.length := by omega
    obtain ⟨g, hg, heq⟩ := read_ifd_chain fs image contents fp i
      (chainFrom contents o0 i) hi hoff (by rw [hfn]; exact hnp i)
    simp only [openLoop]
    rw [if_pos (by omega : image.ifd_offsets.length > i)]
    rw [heq]
    have hnext : nextDir contents (chainFrom contents o0 i) = chainFrom contents o0 (i + 1) := rfl
    rw [hnext]
    rw [if_pos (hnz (i + 1) (by omega))]
    show openLoop fs n
      { image with ifd_offsets := image.ifd_offsets ++ [chainFrom contents o0 (i + 1)] }
      g (i + 1) = none
    obtain ⟨gc, gp⟩ := g
    have hgc : contents = gc := (hg : gc = contents).symm
    subst hgc
    refine ih (i + 1) _ gp (by simpa using hfn) (by simp [hlen]) ?_
    show (image.ifd_offsets ++ [chainFrom contents o0 (i + 1)]).getD (i + 1) 0 =
      chainFrom contents o0 (i + 1)
    rw [List.getD_append_right _ _ _ _ (by omega)]
    simp [hlen]

/-- Claim C3 (amended): for every input file that parses past the header,
if the next-directory pointer chain from the first IFD offset revisits an
offset (the chain value at some index `i` recurs at a later index `j`,
with every chain offset up to `j` nonzero, so the walker really reaches
the revisit) and no directory on the chain panics while its tags decode,
then the open operation does not terminate: no fuel bound makes the
directory loop exit, because the walker re-appends a chain offset at
every step.  (A cyclic file that panics mid-decode — e.g. an unknown tag
type code — crashes instead of looping, which is how the original
unconditional claim fails; see the counterexample.) -/
theorem claim_C3 (fs : Fs) (path : String) (contents : List Nat)
    (image0 : RawImage) (f0 : FHandle) (fuel i j : Nat)
    (hfs : fs path = some contents)
    (hhdr : read_header defaultRawImage { contents := contents, pos := 0 } =
      Except.ok (image0, f0))
    (hij : i < j)
    (hcyc : chainFrom contents (image0.ifd_offsets.getD 0 0) i =
      chainFrom contents (image0.ifd_offsets.getD 0 0) j)
    (hlive : ∀ k, 1 ≤ k → k ≤ j →
      chainFrom contents (image0.ifd_offsets.getD 0 0) k ≠ 0)
    (hnp : ∀ k, dirBody fs image0.file_name contents
      (chainFrom contents (image0.ifd_offsets.getD 0 0) k) ≠ Outcome.panicked) :
    openCr2 fs path fuel = none := by
  have hnz := chainFrom_nonzero contents (image0.ifd_offsets.getD 0 0) i j hij hcyc hlive
  have hf0c : f0.contents = contents := read_header_contents _ _ _ hhdr
  have hlen1 : image0.ifd_offsets.length = 0 + 1 := by
    obtain ⟨_, _, v, hv⟩ := read_header_shape _ _ _ hhdr
    have hv2 : image0.ifd_offsets = defaultRawImage.ifd_offsets ++ [v] := hv
    simp [hv2, defaultRawImage]
  have hoff0 : image0.ifd_offsets.getD 0 0 =
      chainFrom contents (image0.ifd_offsets.getD 0 0) 0 := rfl
  obtain ⟨c0, p0⟩ := f0
  have hcc : contents = c0 := (hf0c : c0 = contents).symm
  subst hcc
  simp only [openCr2, hfs, hhdr]
  rw [openLoop_chain fs image0.file_name contents
    (image0.ifd_offsets.getD 0 0) hnz hnp fuel 0 image0 p0 rfl hlen1 hoff0]

/-- Counterexample to claim C3 as stated: `filePan`'s next-directory
chain loops straight back to the already-visited first offset 0x10 (and
never reaches 0), yet open terminates — the IFD's tag has the undefined
type code 13, so decoding panics on the first visit instead of walking
forever. -/
theorem claim_C3_cex :
    chainFrom filePan 0x10 1 = chainFrom filePan 0x10 0 ∧
    chainFrom filePan 0x10 1 ≠ 0 ∧
    openCr2 fsPan "p" 2 = some Outcome.panicked ∧
    openCr2 fsPan "p" 100 = some Outcome.panicked :=
  ⟨rfl, by decide, rfl, rfl⟩

/-- Witness for claim C3 at the concrete cyclic file `fileC` (self-loop
at offset 0x10, zero tags, hence panic-free): no fuel makes open finish. -/
theorem claim_C3_witness : openCr2 fsC "c" 5 = none :=
  claim_C3 fsC "c" fileC imgC0 { contents := fileC, pos := 16 } 5 0 1 rfl rfl
    (by decide)
    (by decide)
    (by
      intro k h1 h2
      have hk : k = 1 := by omega
      subst hk
      decide)
    (by
      intro k
      have hch : chainFrom fileC (imgC0.ifd_offsets.getD 0 0) k = 0x10 := by
        induction k with
        | zero => rfl
        | succ n ih =>
          show nextDir fileC (chainFrom fileC (imgC0.ifd_offsets.getD 0 0) n) = 0x10
          rw [ih]
          decide
      rw [hch]
      decide)
